import Mathlib

/- Verification of the SIPN person-search model (src/models/model.py).

The development shallowly embeds the forward pass of the SIPN module together
with the identity-bank (OIM) update protocol.  Tensor-level collaborators
(backbone head and tail, the STRPN proposal subsystem, the linear heads, the
detection losses) are opaque functions recorded as fields of the model
structure, since the repository treats them as black boxes producing and
consuming tensors.  The identity-bank update rule is performed by oim_loss
from utils/losses.py, a file that is not among the sources; it is modelled
from the specification and marked as such below. -/

/-- Identity embeddings: vectors of dimension D carrying the Euclidean
(L2) norm. -/
abbrev Emb (D : Nat) := EuclideanSpace ℝ (Fin D)

/-- L2 normalization as performed by func.normalize (model.py lines 85, 112
and 142): the vector is rescaled to unit norm.  The zero vector is mapped to
itself (torch divides by an epsilon-clamped norm, so an exactly zero input
stays zero; here the inverse of the zero norm is zero). -/
noncomputable def normalizeV {D : Nat} (v : Emb D) : Emb D := (‖v‖)⁻¹ • v

/-- Per-region identity label, as carried by pid_label in model.py line 87.
Modelled from the spec: the label taxonomy of section 3 (background/negative,
known-identity(id), unlabeled-person) consumed by the oim_loss update in
utils/losses.py, which is outside the sources. -/
inductive SampleLabel where
  | background
  | known (i : Nat)
  | unlabeled
deriving DecidableEq

/-- One training sample entering the identity loss: its pid label paired with
its (already L2-normalized) embedding. -/
structure Sample (D : Nat) where
  label : SampleLabel
  emb : Emb D

/-- Identity Bank state: the per-identity lookup table lut, the circular
queue of unlabeled embeddings, and the queue write cursor.  It mirrors the
buffers registered in SIPN.__init__ (model.py lines 38-41) together with the
cursor owned by the spec-modelled update rule. -/
structure IdentityBank (D : Nat) where
  lut : List (Emb D)
  queue : List (Emb D)
  cursor : Nat

/-- Fatal errors surfaced by SIPN.forward: the KeyError raised on an invalid
inference mode (model.py line 147), a failure to read config.yml in gallery
mode (line 116), and the out-of-range identity id that the spec declares a
fatal programming error (section 4.1, for the spec-modelled update). -/
inductive SIPNError where
  | invalidMode (mode : String)
  | configUnreadable
  | pidOutOfRange (i : Nat)
deriving DecidableEq

/-- Modelled from the spec: the queue side of the update rule of section 4.1,
implemented by oim_loss in utils/losses.py (not among the sources) — the
embedding is written at the current write cursor and the cursor advances
modulo queue_size (FIFO ring, unconditional overwrite). -/
def pushQueue {D : Nat} (b : IdentityBank D) (e : Emb D) : IdentityBank D :=
  { b with
      queue := b.queue.set b.cursor e
      cursor := (b.cursor + 1) % b.queue.length }

/-- Modelled from the spec: the per-sample update rule of section 4.1,
implemented by oim_loss in utils/losses.py (not among the sources).  A known
identity i blends its lut row by exponential moving average and then
re-normalizes; an unlabeled person is pushed onto the queue; a background
sample mutates nothing; an out-of-range identity id is a fatal programming
error. -/
noncomputable def updateSample {D : Nat} (m : ℝ) (b : IdentityBank D) (s : Sample D) :
    Except SIPNError (IdentityBank D) :=
  match s.label with
  | .background => .ok b
  | .unlabeled => .ok (pushQueue b s.emb)
  | .known i =>
    if h : i < b.lut.length then
      .ok { b with
              lut := b.lut.set i (normalizeV (m • b.lut.get ⟨i, h⟩ + (1 - m) • s.emb)) }
    else
      .error (.pidOutOfRange i)

/-- Modelled from the spec: the batch update of section 4.1 — samples are
processed in a fixed index order (the deterministic-order invariant). -/
noncomputable def updateBatch {D : Nat} (m : ℝ) (b : IdentityBank D) (ss : List (Sample D)) :
    Except SIPNError (IdentityBank D) :=
  ss.foldlM (updateSample m) b

/-- Bounding-box de-normalization constants read from config.yml during
gallery inference (model.py lines 116-119): one mean and one standard
deviation per box coordinate. -/
structure BoxNormConfig where
  means : Fin 4 → ℝ
  stds : Fin 4 → ℝ

/-- De-normalization of one raw 8-dimensional box prediction row (model.py
lines 120-124): the 4 per-coordinate constants are repeated for the 2 classes
(PyTorch repeat(2)), then the row is multiplied elementwise by the stds and
the means are added. -/
def denormBBox (cfg : BoxNormConfig) (row : Fin 8 → ℝ) : Fin 8 → ℝ :=
  fun c => row c * cfg.stds ⟨c.val % 4, by omega⟩ + cfg.means ⟨c.val % 4, by omega⟩

/-- Shallow embedding of the SIPN module (model.py class SIPN).  T is the
abstract tensor type of the external collaborators.  Each field is one of the
black-box components the forward pass composes: the backbone head and tail,
the three STRPN entry points (training, gallery, query), the flatten view and
spatial mean used by the vgg16 and non-vgg16 branches, the three linear
heads, the external loss functions, and the value of the OIM loss (whose
scalar value is an external computation from utils/losses.py; only its bank
update side effect is modelled concretely, by updateBatch above). -/
structure SIPNNet (D : Nat) (T : Type) where
  netName : String
  isTrain : Bool
  lutMomentum : ℝ
  head : T → T
  strpnTrain : T → T → T → T × T × (ℝ × ℝ) × (T × List SampleLabel) × T
  strpnGallery : T → T → T → T × T × T
  strpnQuery : T → T → T → T
  flatten : T → T
  tail : T → T
  spatialMean : T → T
  clsScoreNet : T → T
  bboxPredNet : T → List (Fin 8 → ℝ)
  reidFeatNet : T → List (Emb D)
  crossEntropy : T → T → ℝ
  smoothL1 : List (Fin 8 → ℝ) → T → ℝ
  softmax : T → T
  gtSize : T → Nat
  oimLossVal : List (Emb D) → List SampleLabel → List (Emb D) → List (Emb D) → Nat → ℝ → ℝ

/-- Backbone-specific reshaping shared by all three branches of forward
(model.py lines 75-79, 102-106, 137-141): the vgg16 backbone consumes a
flattened pooled feature before tail, every other backbone applies tail and
reduces the spatial dimensions by averaging. -/
def fc7Of {D : Nat} {T : Type} (net : SIPNNet D T) (pooled : T) : T :=
  if net.netName = "vgg16" then net.tail (net.flatten pooled) else net.spatialMean (net.tail pooled)

/-- Training-branch STRPN call (model.py lines 71-74): backbone head followed
by the proposal subsystem, returning pooled features, the unused transformed
features, the two rpn losses, the detection and pid labels, and the box
regression targets. -/
def trainStrpnOut {D : Nat} {T : Type} (net : SIPNNet D T) (imData gtBoxes imInfo : T) :
    T × T × (ℝ × ℝ) × (T × List SampleLabel) × T :=
  net.strpnTrain (net.head imData) gtBoxes imInfo

/-- Training-branch task descriptor fc7 (model.py lines 75-79). -/
def trainFc7 {D : Nat} {T : Type} (net : SIPNNet D T) (imData gtBoxes imInfo : T) : T :=
  fc7Of net (trainStrpnOut net imData gtBoxes imInfo).1

/-- Training-branch rpn loss pair (model.py line 93). -/
def trainRpnLoss {D : Nat} {T : Type} (net : SIPNNet D T) (imData gtBoxes imInfo : T) : ℝ × ℝ :=
  (trainStrpnOut net imData gtBoxes imInfo).2.2.1

/-- Training-branch detection labels (model.py lines 87-88). -/
def trainDetLabel {D : Nat} {T : Type} (net : SIPNNet D T) (imData gtBoxes imInfo : T) : T :=
  (trainStrpnOut net imData gtBoxes imInfo).2.2.2.1.1

/-- Training-branch person-id labels (model.py line 87). -/
def trainPidLabel {D : Nat} {T : Type} (net : SIPNNet D T) (imData gtBoxes imInfo : T) :
    List SampleLabel :=
  (trainStrpnOut net imData gtBoxes imInfo).2.2.2.1.2

/-- Training-branch box regression targets (model.py line 73). -/
def trainBBoxInfo {D : Nat} {T : Type} (net : SIPNNet D T) (imData gtBoxes imInfo : T) : T :=
  (trainStrpnOut net imData gtBoxes imInfo).2.2.2.2

/-- Training-branch detection classification loss (model.py line 89). -/
def trainClsLoss {D : Nat} {T : Type} (net : SIPNNet D T) (imData gtBoxes imInfo : T) : ℝ :=
  net.crossEntropy (net.clsScoreNet (trainFc7 net imData gtBoxes imInfo))
    (trainDetLabel net imData gtBoxes imInfo)

/-- Training-branch box regression loss (model.py line 90). -/
def trainBoxLoss {D : Nat} {T : Type} (net : SIPNNet D T) (imData gtBoxes imInfo : T) : ℝ :=
  net.smoothL1 (net.bboxPredNet (trainFc7 net imData gtBoxes imInfo))
    (trainBBoxInfo net imData gtBoxes imInfo)

/-- Training-branch re-identification features (model.py line 85): the output
of the reid linear head, L2-normalized row by row at the loss boundary. -/
noncomputable def trainReidFeat {D : Nat} {T : Type} (net : SIPNNet D T)
    (imData gtBoxes imInfo : T) : List (Emb D) :=
  (net.reidFeatNet (trainFc7 net imData gtBoxes imInfo)).map normalizeV

/-- Samples handed by forward to the identity-bank update: each pid label
paired with its normalized embedding (the arguments of oim_loss at model.py
lines 91-92). -/
noncomputable def trainSamples {D : Nat} {T : Type} (net : SIPNNet D T)
    (imData gtBoxes imInfo : T) : List (Sample D) :=
  List.zipWith Sample.mk (trainPidLabel net imData gtBoxes imInfo)
    (trainReidFeat net imData gtBoxes imInfo)

/-- Scalar value of the identity loss (model.py lines 91-92): computed by the
external oim_loss from the normalized features, the pid labels, the current
(pre-update) bank tables, the ground-truth count and the momentum. -/
noncomputable def trainReidLoss {D : Nat} {T : Type} (net : SIPNNet D T) (bank : IdentityBank D)
    (imData gtBoxes imInfo : T) : ℝ :=
  net.oimLossVal (trainReidFeat net imData gtBoxes imInfo) (trainPidLabel net imData gtBoxes imInfo)
    bank.lut bank.queue (net.gtSize gtBoxes) net.lutMomentum

/-- Gallery-branch STRPN call (model.py lines 99-101), returning regions,
pooled features and the unused transformed features. -/
def galleryStrpnOut {D : Nat} {T : Type} (net : SIPNNet D T) (imData gtBoxes imInfo : T) :
    T × T × T :=
  net.strpnGallery (net.head imData) gtBoxes imInfo

/-- Gallery-branch task descriptor fc7 (model.py lines 102-106). -/
def galleryFc7 {D : Nat} {T : Type} (net : SIPNNet D T) (imData gtBoxes imInfo : T) : T :=
  fc7Of net (galleryStrpnOut net imData gtBoxes imInfo).2.1

/-- Gallery-branch class probabilities (model.py line 114). -/
def galleryClsProb {D : Nat} {T : Type} (net : SIPNNet D T) (imData gtBoxes imInfo : T) : T :=
  net.softmax (net.clsScoreNet (galleryFc7 net imData gtBoxes imInfo))

/-- Gallery-branch raw box predictions (model.py line 108). -/
def galleryBBoxRaw {D : Nat} {T : Type} (net : SIPNNet D T) (imData gtBoxes imInfo : T) :
    List (Fin 8 → ℝ) :=
  net.bboxPredNet (galleryFc7 net imData gtBoxes imInfo)

/-- Gallery-branch de-normalized box predictions (model.py lines 120-124). -/
def galleryBBox {D : Nat} {T : Type} (net : SIPNNet D T) (imData gtBoxes imInfo : T)
    (cfg : BoxNormConfig) : List (Fin 8 → ℝ) :=
  (galleryBBoxRaw net imData gtBoxes imInfo).map (denormBBox cfg)

/-- Gallery-branch region coordinates (model.py line 100). -/
def galleryRois {D : Nat} {T : Type} (net : SIPNNet D T) (imData gtBoxes imInfo : T) : T :=
  (galleryStrpnOut net imData gtBoxes imInfo).1

/-- Gallery-branch re-identification features (model.py line 112),
L2-normalized row by row. -/
noncomputable def galleryReid {D : Nat} {T : Type} (net : SIPNNet D T)
    (imData gtBoxes imInfo : T) : List (Emb D) :=
  (net.reidFeatNet (galleryFc7 net imData gtBoxes imInfo)).map normalizeV

/-- Query-branch pooled features (model.py lines 134-136). -/
def queryPooled {D : Nat} {T : Type} (net : SIPNNet D T) (imData gtBoxes imInfo : T) : T :=
  net.strpnQuery (net.head imData) gtBoxes imInfo

/-- Query-branch task descriptor fc7 (model.py lines 137-141). -/
def queryFc7 {D : Nat} {T : Type} (net : SIPNNet D T) (imData gtBoxes imInfo : T) : T :=
  fc7Of net (queryPooled net imData gtBoxes imInfo)

/-- Query-branch re-identification features (model.py line 142),
L2-normalized row by row. -/
noncomputable def queryReid {D : Nat} {T : Type} (net : SIPNNet D T)
    (imData gtBoxes imInfo : T) : List (Emb D) :=
  (net.reidFeatNet (queryFc7 net imData gtBoxes imInfo)).map normalizeV

/-- Everything SIPN.forward can hand back to the caller: the five training
loss scalars (model.py line 95), the four gallery outputs (line 131), or the
query embeddings (line 144). -/
inductive ForwardOut (D : Nat) (T : Type) where
  | losses (rpnCls rpnBox cls box reid : ℝ)
  | gallery (clsProb : T) (bbox : List (Fin 8 → ℝ)) (rois : T) (reid : List (Emb D))
  | query (reid : List (Emb D))

/-- Shallow embedding of SIPN.forward (model.py lines 69-147).  The Identity
Bank is passed in and returned explicitly, standing for the registered
buffers mutated in place by the training path.  The config.yml read of the
gallery branch is modelled by the cfgRead argument: the Option holds the
parsed de-normalization constants when the file is readable at call time and
is none when it is missing or unreadable, which is fatal for that branch. -/
noncomputable def SIPN.forward {D : Nat} {T : Type} (net : SIPNNet D T) (bank : IdentityBank D)
    (imData gtBoxes imInfo : T) (mode : String) (cfgRead : Option BoxNormConfig) :
    Except SIPNError (ForwardOut D T × IdentityBank D) :=
  if net.isTrain then
    match updateBatch net.lutMomentum bank (trainSamples net imData gtBoxes imInfo) with
    | .error e => .error e
    | .ok bank2 =>
      .ok (.losses (trainRpnLoss net imData gtBoxes imInfo).1
            (trainRpnLoss net imData gtBoxes imInfo).2
            (trainClsLoss net imData gtBoxes imInfo)
            (trainBoxLoss net imData gtBoxes imInfo)
            (trainReidLoss net bank imData gtBoxes imInfo), bank2)
  else if mode = "gallery" then
    match cfgRead with
    | none => .error .configUnreadable
    | some cfg =>
      .ok (.gallery (galleryClsProb net imData gtBoxes imInfo)
            (galleryBBox net imData gtBoxes imInfo cfg)
            (galleryRois net imData gtBoxes imInfo)
            (galleryReid net imData gtBoxes imInfo), bank)
  else if mode = "query" then
    .ok (.query (queryReid net imData gtBoxes imInfo), bank)
  else
    .error (.invalidMode mode)

/- Helper lemmas about L2 normalization. -/

theorem normalizeV_zero {D : Nat} : normalizeV (0 : Emb D) = 0 := by
  simp [normalizeV]

theorem norm_normalizeV {D : Nat} {v : Emb D} (h : v ≠ 0) : ‖normalizeV v‖ = 1 := by
  rw [normalizeV, norm_smul, norm_inv, norm_norm]
  exact inv_mul_cancel₀ (norm_ne_zero_iff.mpr h)

theorem normalizeV_zero_or_norm_one {D : Nat} (v : Emb D) :
    normalizeV v = 0 ∨ ‖normalizeV v‖ = 1 := by
  by_cases h : v = 0
  · exact Or.inl (by rw [h, normalizeV_zero])
  · exact Or.inr (norm_normalizeV h)

theorem normalizeV_of_norm_one {D : Nat} {v : Emb D} (h : ‖v‖ = 1) : normalizeV v = v := by
  rw [normalizeV, h, inv_one, one_smul]

theorem set_get_self {α : Type _} (l : List α) (i : Nat) (h : i < l.length) :
    l.set i (l.get ⟨i, h⟩) = l := by
  apply List.ext_getElem?
  intro n
  by_cases hn : i = n
  · subst hn
    rw [List.getElem?_set_self h, List.getElem?_eq_getElem h]
    rfl
  · rw [List.getElem?_set_ne hn]

/- Helper lemmas about the queue ring buffer. -/

/-- Folding a list of embeddings through the queue push, left to right. -/
def pushAllQ {D : Nat} (b : IdentityBank D) (es : List (Emb D)) : IdentityBank D :=
  es.foldl pushQueue b

theorem pushAllQ_cons {D : Nat} (b : IdentityBank D) (e : Emb D) (es : List (Emb D)) :
    pushAllQ b (e :: es) = pushAllQ (pushQueue b e) es := rfl

theorem pushAllQ_lut {D : Nat} (es : List (Emb D)) (b : IdentityBank D) :
    (pushAllQ b es).lut = b.lut := by
  induction es generalizing b with
  | nil => rfl
  | cons e es ih => rw [pushAllQ_cons, ih]; rfl

theorem pushAllQ_queue_length {D : Nat} (es : List (Emb D)) (b : IdentityBank D) :
    (pushAllQ b es).queue.length = b.queue.length := by
  induction es generalizing b with
  | nil => rfl
  | cons e es ih => rw [pushAllQ_cons, ih]; simp [pushQueue]

theorem pushQueue_cursor {D : Nat} (b : IdentityBank D) (e : Emb D) :
    (pushQueue b e).cursor = (b.cursor + 1) % b.queue.length := rfl

theorem pushQueue_queue_length {D : Nat} (b : IdentityBank D) (e : Emb D) :
    (pushQueue b e).queue.length = b.queue.length := by
  simp [pushQueue]

theorem pushQueue_cursor_lt {D : Nat} (b : IdentityBank D) (e : Emb D)
    (hc : b.cursor < b.queue.length) :
    (pushQueue b e).cursor < (pushQueue b e).queue.length := by
  have hQpos : 0 < b.queue.length := Nat.lt_of_le_of_lt (Nat.zero_le _) hc
  rw [pushQueue_cursor, pushQueue_queue_length]
  exact Nat.mod_lt _ hQpos

theorem pushAllQ_cursor {D : Nat} (es : List (Emb D)) (b : IdentityBank D)
    (hc : b.cursor < b.queue.length) :
    (pushAllQ b es).cursor = (b.cursor + es.length) % b.queue.length := by
  induction es generalizing b with
  | nil => simp [pushAllQ, Nat.mod_eq_of_lt hc]
  | cons e es ih =>
    rw [pushAllQ_cons, ih (pushQueue b e) (pushQueue_cursor_lt b e hc)]
    simp only [pushQueue, List.length_set, List.length_cons]
    rw [Nat.mod_add_mod]
    congr 1
    omega

theorem add_mod_ne_self {Q c d : Nat} (hc : c < Q) (hd0 : 0 < d) (hdQ : d < Q) :
    (c + d) % Q ≠ c := by
  intro h
  have h2 : (c + d) % Q = (c + 0) % Q := by
    rw [h, Nat.add_zero, Nat.mod_eq_of_lt hc]
  have h3 : d % Q = 0 % Q := Nat.ModEq.add_left_cancel' c h2
  have h4 : Q ∣ d := Nat.dvd_of_mod_eq_zero (by simpa using h3)
  have h5 : d = 0 := Nat.eq_zero_of_dvd_of_lt h4 hdQ
  omega

theorem pushAllQ_get_of_not_written {D : Nat} (es : List (Emb D)) (b : IdentityBank D) (j : Nat)
    (hc : b.cursor < b.queue.length)
    (hj : ∀ i, i < es.length → (b.cursor + i) % b.queue.length ≠ j) :
    (pushAllQ b es).queue[j]? = b.queue[j]? := by
  induction es generalizing b with
  | nil => rfl
  | cons e es ih =>
    have hcne : b.cursor ≠ j := by
      have h0 := hj 0 (by simp)
      rwa [Nat.add_zero, Nat.mod_eq_of_lt hc] at h0
    have hstep : ∀ i, i < es.length →
        ((pushQueue b e).cursor + i) % (pushQueue b e).queue.length ≠ j := by
      intro i hi
      rw [pushQueue_cursor, pushQueue_queue_length, Nat.mod_add_mod]
      have h1 : b.cursor + 1 + i = b.cursor + (1 + i) := by omega
      rw [h1]
      exact hj (1 + i) (by simp only [List.length_cons]; omega)
    rw [pushAllQ_cons, ih (pushQueue b e) (pushQueue_cursor_lt b e hc) hstep]
    exact List.getElem?_set_ne hcne

theorem pushAllQ_get_written {D : Nat} (es : List (Emb D)) (b : IdentityBank D)
    (hle : es.length ≤ b.queue.length) (hc : b.cursor < b.queue.length) :
    ∀ i, i < es.length →
      (pushAllQ b es).queue[(b.cursor + i) % b.queue.length]? = es[i]? := by
  induction es generalizing b with
  | nil => intro i hi; exact absurd hi (by simp)
  | cons e es ih =>
    intro i hi
    have hes : es.length + 1 ≤ b.queue.length := by
      simpa using hle
    match i with
    | 0 =>
      rw [Nat.add_zero, Nat.mod_eq_of_lt hc, pushAllQ_cons]
      have hstep : ∀ t, t < es.length →
          ((pushQueue b e).cursor + t) % (pushQueue b e).queue.length ≠ b.cursor := by
        intro t ht
        rw [pushQueue_cursor, pushQueue_queue_length, Nat.mod_add_mod]
        have h1 : b.cursor + 1 + t = b.cursor + (1 + t) := by omega
        rw [h1]
        exact add_mod_ne_self hc (by omega) (by omega)
      rw [pushAllQ_get_of_not_written es (pushQueue b e) b.cursor
        (pushQueue_cursor_lt b e hc) hstep]
      show (b.queue.set b.cursor e)[b.cursor]? = _
      rw [List.getElem?_set_self hc]
      simp
    | Nat.succ t =>
      have ht : t < es.length := by
        simp only [List.length_cons] at hi
        omega
      have hle2 : es.length ≤ (pushQueue b e).queue.length := by
        rw [pushQueue_queue_length]
        omega
      have key := ih (pushQueue b e) hle2 (pushQueue_cursor_lt b e hc) t ht
      rw [pushQueue_cursor, pushQueue_queue_length, Nat.mod_add_mod] at key
      have h1 : b.cursor + 1 + t = b.cursor + (t + 1) := by omega
      rw [h1] at key
      rw [pushAllQ_cons]
      show (pushAllQ (pushQueue b e) es).queue[(b.cursor + (t + 1)) % b.queue.length]? =
        (e :: es)[t + 1]?
      rw [key]
      simp

/- Helper lemmas about the batch update. -/

theorem updateBatch_nil {D : Nat} (m : ℝ) (b : IdentityBank D) :
    updateBatch m b [] = .ok b := rfl

theorem updateBatch_cons {D : Nat} (m : ℝ) (b : IdentityBank D) (s : Sample D)
    (ss : List (Sample D)) :
    updateBatch m b (s :: ss) =
      updateSample m b s >>= fun b1 => updateBatch m b1 ss := by
  simp [updateBatch]

theorem updateSample_background {D : Nat} (m : ℝ) (b : IdentityBank D) (s : Sample D)
    (h : s.label = .background) : updateSample m b s = .ok b := by
  simp only [updateSample, h]

theorem updateSample_unlabeled {D : Nat} (m : ℝ) (b : IdentityBank D) (s : Sample D)
    (h : s.label = .unlabeled) : updateSample m b s = .ok (pushQueue b s.emb) := by
  simp only [updateSample, h]

theorem updateBatch_background {D : Nat} (m : ℝ) (b : IdentityBank D) (ss : List (Sample D))
    (h : ∀ s ∈ ss, s.label = .background) : updateBatch m b ss = .ok b := by
  induction ss with
  | nil => rfl
  | cons s ss ih =>
    rw [updateBatch_cons, updateSample_background m b s (h s (List.mem_cons_self s ss))]
    show updateBatch m b ss = .ok b
    exact ih (fun s2 hs2 => h s2 (List.mem_cons_of_mem s hs2))

theorem updateBatch_unlabeled {D : Nat} (m : ℝ) (es : List (Emb D)) (b : IdentityBank D) :
    updateBatch m b (es.map (fun e => ⟨.unlabeled, e⟩)) = .ok (pushAllQ b es) := by
  induction es generalizing b with
  | nil => rfl
  | cons e es ih =>
    rw [List.map_cons, updateBatch_cons,
      updateSample_unlabeled m b ⟨.unlabeled, e⟩ rfl]
    show updateBatch m (pushQueue b e) (es.map (fun e => ⟨.unlabeled, e⟩)) = _
    rw [ih (pushQueue b e), pushAllQ_cons]

theorem updateSample_error_shape {D : Nat} (m : ℝ) (b : IdentityBank D) (s : Sample D)
    (e : SIPNError) (h : updateSample m b s = .error e) : ∃ i, e = .pidOutOfRange i := by
  rcases s with ⟨lab, emb⟩
  cases lab with
  | background => exact Except.noConfusion h
  | unlabeled => exact Except.noConfusion h
  | known i =>
    by_cases hi : i < b.lut.length
    · simp only [updateSample] at h
      rw [dif_pos hi] at h
      exact Except.noConfusion h
    · simp only [updateSample] at h
      rw [dif_neg hi] at h
      exact ⟨i, (Except.error.inj h).symm⟩

theorem updateSample_ok_of_inRange {D : Nat} (m : ℝ) (b : IdentityBank D) (s : Sample D)
    (h : ∀ i, s.label = .known i → i < b.lut.length) :
    ∃ b1, updateSample m b s = .ok b1 ∧ b1.lut.length = b.lut.length := by
  rcases s with ⟨lab, emb⟩
  cases lab with
  | background => exact ⟨b, rfl, rfl⟩
  | unlabeled => exact ⟨pushQueue b emb, rfl, rfl⟩
  | known i =>
    have hi : i < b.lut.length := h i rfl
    refine ⟨{ b with
        lut := b.lut.set i (normalizeV (m • b.lut.get ⟨i, hi⟩ + (1 - m) • emb)) }, ?_, ?_⟩
    · simp only [updateSample]
      rw [dif_pos hi]
    · simp

theorem updateBatch_ok_of_inRange {D : Nat} (m : ℝ) (ss : List (Sample D)) (b : IdentityBank D)
    (h : ∀ s ∈ ss, ∀ i, s.label = .known i → i < b.lut.length) :
    ∃ b2, updateBatch m b ss = .ok b2 := by
  induction ss generalizing b with
  | nil => exact ⟨b, rfl⟩
  | cons s ss ih =>
    obtain ⟨b1, h1, hlen⟩ := updateSample_ok_of_inRange m b s (h s (List.mem_cons_self s ss))
    obtain ⟨b2, h2⟩ := ih b1 (fun s2 hs2 i hk => by
      rw [hlen]
      exact h s2 (List.mem_cons_of_mem s hs2) i hk)
    refine ⟨b2, ?_⟩
    rw [updateBatch_cons, h1]
    show updateBatch m b1 ss = .ok b2
    exact h2

theorem updateBatch_error_shape {D : Nat} (m : ℝ) (ss : List (Sample D)) (b : IdentityBank D)
    (e : SIPNError) (h : updateBatch m b ss = .error e) : ∃ i, e = .pidOutOfRange i := by
  induction ss generalizing b with
  | nil =>
    rw [updateBatch_nil] at h
    exact Except.noConfusion h
  | cons s ss ih =>
    rw [updateBatch_cons] at h
    cases hs : updateSample m b s with
    | error e2 =>
      rw [hs] at h
      have h2 : (Except.error e2 : Except SIPNError (IdentityBank D)) = .error e := h
      exact (Except.error.inj h2) ▸ updateSample_error_shape m b s e2 hs
    | ok b1 =>
      rw [hs] at h
      exact ih b1 h

/- Concrete values used by the witnesses. -/

/-- Concrete unit embedding in dimension one. -/
noncomputable def unitE : Emb 1 := EuclideanSpace.single 0 1

theorem unitE_norm : ‖unitE‖ = 1 := by
  rw [unitE, EuclideanSpace.norm_single]
  norm_num

theorem unitE_ne_zero : unitE ≠ 0 := by
  intro h
  have h1 := unitE_norm
  rw [h, norm_zero] at h1
  norm_num at h1

/-- Concrete bank with a single zero lut row and an empty queue. -/
noncomputable def c1Bank : IdentityBank 1 := ⟨[0], [], 0⟩

theorem c1Bank_lut_length : 0 < c1Bank.lut.length := by
  simp [c1Bank]

/-- Claim C1: for a sample carrying a known identity i in range, the
spec-modelled identity-loss update (oim_loss of utils/losses.py is not among
the sources) replaces lut row i by the normalized exponential moving average
normalize(m * lut[i] + (1 - m) * embedding) while leaving the queue and the
remaining rows untouched, and whenever the blended vector is nonzero the new
row has unit L2 norm; the row has moved toward the new embedding with weight
exactly (1 - m) before re-normalization. -/
theorem lut_ema_update {D : Nat} (m : ℝ) (b : IdentityBank D) (i : Nat) (e : Emb D)
    (h : i < b.lut.length) :
    updateSample m b ⟨.known i, e⟩ =
      .ok { b with lut := b.lut.set i (normalizeV (m • b.lut.get ⟨i, h⟩ + (1 - m) • e)) } ∧
    (m • b.lut.get ⟨i, h⟩ + (1 - m) • e ≠ 0 →
      ‖normalizeV (m • b.lut.get ⟨i, h⟩ + (1 - m) • e)‖ = 1) := by
  constructor
  · simp only [updateSample]
    rw [dif_pos h]
  · exact fun hne => norm_normalizeV hne

theorem lut_ema_update_witness :
    updateSample (1 / 2 : ℝ) c1Bank ⟨.known 0, unitE⟩ =
      .ok { c1Bank with
              lut := c1Bank.lut.set 0
                (normalizeV ((1 / 2 : ℝ) • c1Bank.lut.get ⟨0, c1Bank_lut_length⟩
                  + (1 - 1 / 2 : ℝ) • unitE)) } ∧
    ‖normalizeV ((1 / 2 : ℝ) • c1Bank.lut.get ⟨0, c1Bank_lut_length⟩
      + (1 - 1 / 2 : ℝ) • unitE)‖ = 1 := by
  have hget : c1Bank.lut.get ⟨0, c1Bank_lut_length⟩ = 0 := rfl
  have hne : (1 / 2 : ℝ) • c1Bank.lut.get ⟨0, c1Bank_lut_length⟩
      + (1 - 1 / 2 : ℝ) • unitE ≠ 0 := by
    rw [hget, smul_zero, zero_add]
    intro hz
    have h1 : ‖(1 - 1 / 2 : ℝ) • unitE‖ = 0 := by
      rw [hz, norm_zero]
    rw [norm_smul, unitE_norm] at h1
    norm_num at h1
  have hmain := lut_ema_update (1 / 2 : ℝ) c1Bank 0 unitE c1Bank_lut_length
  exact ⟨hmain.1, hmain.2 hne⟩

/-- Claim C2: feeding queue_size + k unlabeled-person samples (k smaller than
queue_size) through the spec-modelled identity-loss update, starting at write
cursor zero, succeeds and leaves the queue holding exactly the last
queue_size embeddings pushed with the oldest entries overwritten first; the
cursor ends at k and the lookup table is untouched. -/
theorem queue_fifo_ring {D : Nat} (m : ℝ) (b : IdentityBank D) (Q k : Nat) (es : List (Emb D))
    (hc : b.cursor = 0) (hQ : b.queue.length = Q) (hk : k < Q) (hlen : es.length = Q + k) :
    ∃ b2, updateBatch m b (es.map (fun e => ⟨.unlabeled, e⟩)) = .ok b2 ∧
      b2.lut = b.lut ∧ b2.queue.length = Q ∧ b2.cursor = k ∧
      ∀ j, j < Q → b2.queue[j]? = es[if j < k then Q + j else j]? := by
  have hQpos : 0 < Q := Nat.lt_of_le_of_lt (Nat.zero_le k) hk
  have hc0 : b.cursor < b.queue.length := by
    rw [hc, hQ]
    exact hQpos
  refine ⟨pushAllQ b es, updateBatch_unlabeled m es b, pushAllQ_lut es b, ?_, ?_, ?_⟩
  · rw [pushAllQ_queue_length, hQ]
  · rw [pushAllQ_cursor es b hc0, hc, hQ, hlen, Nat.zero_add, Nat.add_mod_left,
      Nat.mod_eq_of_lt hk]
  · intro j hj
    have hsplit : pushAllQ b es = pushAllQ (pushAllQ b (es.take k)) (es.drop k) := by
      rw [pushAllQ, pushAllQ, pushAllQ, ← List.foldl_append, List.take_append_drop]
    set b1 := pushAllQ b (es.take k) with hb1
    have hlen1 : b1.queue.length = Q := by
      rw [hb1, pushAllQ_queue_length, hQ]
    have htake : (es.take k).length = k := by
      rw [List.length_take]
      omega
    have hcur1 : b1.cursor = k := by
      rw [hb1, pushAllQ_cursor (es.take k) b hc0, hc, htake, hQ, Nat.zero_add,
        Nat.mod_eq_of_lt hk]
    have hcur1lt : b1.cursor < b1.queue.length := by
      rw [hcur1, hlen1]
      exact hk
    have hdroplen : (es.drop k).length = Q := by
      rw [List.length_drop]
      omega
    have hwrite := pushAllQ_get_written (es.drop k) b1 (by rw [hdroplen, hlen1]) hcur1lt
    rw [hcur1, hlen1, hdroplen] at hwrite
    by_cases hjk : j < k
    · have ht : Q + j - k < Q := by omega
      have hval := hwrite (Q + j - k) ht
      have hidx : (k + (Q + j - k)) % Q = j := by
        have h2 : k + (Q + j - k) = Q + j := by omega
        rw [h2, Nat.add_mod_left, Nat.mod_eq_of_lt hj]
      rw [hidx] at hval
      rw [hsplit, hval, List.getElem?_drop]
      have h3 : k + (Q + j - k) = Q + j := by omega
      rw [h3, if_pos hjk]
    · have ht : j - k < Q := by omega
      have hval := hwrite (j - k) ht
      have hidx : (k + (j - k)) % Q = j := by
        have h2 : k + (j - k) = j := by omega
        rw [h2, Nat.mod_eq_of_lt hj]
      rw [hidx] at hval
      rw [hsplit, hval, List.getElem?_drop]
      have h3 : k + (j - k) = j := by omega
      rw [h3, if_neg hjk]

/-- Concrete bank with an empty lut and a queue of two zero rows. -/
noncomputable def c2Bank : IdentityBank 1 := ⟨[], [0, 0], 0⟩

theorem queue_fifo_ring_witness :
    ∃ b2, updateBatch (1 / 2 : ℝ) c2Bank
        ([unitE, 0, unitE].map (fun e => ⟨.unlabeled, e⟩)) = .ok b2 ∧
      b2.lut = c2Bank.lut ∧ b2.queue.length = 2 ∧ b2.cursor = 1 ∧
      ∀ j, j < 2 → b2.queue[j]? = [unitE, 0, unitE][if j < 1 then 2 + j else j]? :=
  queue_fifo_ring (1 / 2 : ℝ) c2Bank 2 1 [unitE, 0, unitE] rfl rfl (by omega) rfl

/-- Minimal concrete instantiation of the model used by the witnesses: the
tensor type is Unit and every collaborator is a constant function.  The reid
head emits a single raw embedding so that the normalization boundary is
exercised. -/
noncomputable def trivNet (train : Bool) : SIPNNet 1 Unit where
  netName := "res50"
  isTrain := train
  lutMomentum := 1 / 2
  head := fun _ => ()
  strpnTrain := fun _ _ _ => ((), (), (0, 0), ((), []), ())
  strpnGallery := fun _ _ _ => ((), (), ())
  strpnQuery := fun _ _ _ => ()
  flatten := fun x => x
  tail := fun x => x
  spatialMean := fun x => x
  clsScoreNet := fun x => x
  bboxPredNet := fun _ => []
  reidFeatNet := fun _ => [unitE]
  crossEntropy := fun _ _ => 0
  smoothL1 := fun _ _ => 0
  softmax := fun x => x
  gtSize := fun _ => 0
  oimLossVal := fun _ _ _ _ _ _ => 0

/-- Concrete empty bank. -/
def trivBank : IdentityBank 1 := ⟨[], [], 0⟩

/-- Claim C3: background-labeled samples leave the Identity Bank untouched in
the spec-modelled update, and every successful inference-mode forward call
(model.py lines 97-147) hands back the bank exactly as it was passed in —
only the training path mutates it. -/
theorem bank_frame_preserved {D : Nat} {T : Type} (net : SIPNNet D T) (bank : IdentityBank D) :
    (∀ (m : ℝ) (ss : List (Sample D)), (∀ s ∈ ss, s.label = .background) →
      updateBatch m bank ss = .ok bank) ∧
    (net.isTrain = false → ∀ imData gtBoxes imInfo mode cfgRead out bank2,
      SIPN.forward net bank imData gtBoxes imInfo mode cfgRead = .ok (out, bank2) →
      bank2 = bank) := by
  constructor
  · exact fun m ss h => updateBatch_background m bank ss h
  · intro ht imData gtBoxes imInfo mode cfgRead out bank2 h
    rw [SIPN.forward.eq_def, ht] at h
    simp only [Bool.false_eq_true, if_false] at h
    by_cases hg : mode = "gallery"
    · rw [if_pos hg] at h
      cases cfgRead with
      | none => exact Except.noConfusion h
      | some cfg =>
        have h2 := Except.ok.inj h
        exact (congrArg Prod.snd h2).symm
    · rw [if_neg hg] at h
      by_cases hq : mode = "query"
      · rw [if_pos hq] at h
        have h2 := Except.ok.inj h
        exact (congrArg Prod.snd h2).symm
      · rw [if_neg hq] at h
        exact Except.noConfusion h

theorem bank_frame_preserved_witness :
    updateBatch (1 / 2 : ℝ) trivBank [⟨.background, unitE⟩] = .ok trivBank ∧
    trivBank = trivBank := by
  have hf : SIPN.forward (trivNet false) trivBank () () () "query" none
      = .ok (.query [normalizeV unitE], trivBank) := rfl
  refine ⟨(bank_frame_preserved (trivNet false) trivBank).1 (1 / 2 : ℝ) _ ?_,
    (bank_frame_preserved (trivNet false) trivBank).2 rfl () () () "query" none
      (.query [normalizeV unitE]) trivBank hf⟩
  intro s hs
  rw [List.mem_singleton] at hs
  rw [hs]

/-- Claim C4: every successful training-mode forward call returns the five
loss scalars separately and in source order — rpn classification loss, rpn
box loss, detection classification loss, box regression loss, identity loss
(model.py line 95) — with no pre-summing; and whenever every known identity
in the batch is in range the call does succeed with exactly this five-way
result. -/
theorem train_returns_five_losses {D : Nat} {T : Type} (net : SIPNNet D T)
    (bank : IdentityBank D) (imData gtBoxes imInfo : T) (mode : String)
    (cfgRead : Option BoxNormConfig) (ht : net.isTrain = true) :
    (∀ out bank2, SIPN.forward net bank imData gtBoxes imInfo mode cfgRead = .ok (out, bank2) →
      out = .losses (trainRpnLoss net imData gtBoxes imInfo).1
        (trainRpnLoss net imData gtBoxes imInfo).2
        (trainClsLoss net imData gtBoxes imInfo)
        (trainBoxLoss net imData gtBoxes imInfo)
        (trainReidLoss net bank imData gtBoxes imInfo)) ∧
    ((∀ s ∈ trainSamples net imData gtBoxes imInfo, ∀ i, s.label = .known i →
        i < bank.lut.length) →
      ∃ bank2, SIPN.forward net bank imData gtBoxes imInfo mode cfgRead =
        .ok (.losses (trainRpnLoss net imData gtBoxes imInfo).1
          (trainRpnLoss net imData gtBoxes imInfo).2
          (trainClsLoss net imData gtBoxes imInfo)
          (trainBoxLoss net imData gtBoxes imInfo)
          (trainReidLoss net bank imData gtBoxes imInfo), bank2)) := by
  constructor
  · intro out bank2 h
    rw [SIPN.forward.eq_def, ht] at h
    simp only [eq_self_iff_true, if_true] at h
    cases hu : updateBatch net.lutMomentum bank (trainSamples net imData gtBoxes imInfo) with
    | error e =>
      rw [hu] at h
      exact Except.noConfusion h
    | ok bank3 =>
      rw [hu] at h
      have h2 := Except.ok.inj h
      exact (congrArg Prod.fst h2).symm
  · intro hin
    obtain ⟨bank2, h2⟩ :=
      updateBatch_ok_of_inRange net.lutMomentum (trainSamples net imData gtBoxes imInfo) bank hin
    refine ⟨bank2, ?_⟩
    rw [SIPN.forward.eq_def, ht]
    simp only [eq_self_iff_true, if_true]
    rw [h2]

theorem train_returns_five_losses_witness :
    ∃ bank2, SIPN.forward (trivNet true) trivBank () () () "banana" none =
      .ok (.losses (trainRpnLoss (trivNet true) () () ()).1
        (trainRpnLoss (trivNet true) () () ()).2
        (trainClsLoss (trivNet true) () () ())
        (trainBoxLoss (trivNet true) () () ())
        (trainReidLoss (trivNet true) trivBank () () ()), bank2) := by
  refine (train_returns_five_losses (trivNet true) trivBank () () () "banana" none rfl).2 ?_
  intro s hs i hk
  have hnil : trainSamples (trivNet true) () () () = [] := rfl
  rw [hnil] at hs
  exact absurd hs (List.not_mem_nil s)

/-- Claim C5: with the model constructed for inference (is_train false), any
mode string other than gallery and query makes forward fail immediately with
the invalid-mode error (the KeyError of model.py line 147); no output is
produced and no updated bank is handed back. -/
theorem invalid_mode_fatal {D : Nat} {T : Type} (net : SIPNNet D T) (bank : IdentityBank D)
    (imData gtBoxes imInfo : T) (mode : String) (cfgRead : Option BoxNormConfig)
    (ht : net.isTrain = false) (hg : mode ≠ "gallery") (hq : mode ≠ "query") :
    SIPN.forward net bank imData gtBoxes imInfo mode cfgRead =
      .error (.invalidMode mode) := by
  rw [SIPN.forward.eq_def, ht]
  simp only [Bool.false_eq_true, if_false]
  rw [if_neg hg, if_neg hq]

theorem invalid_mode_fatal_witness :
    SIPN.forward (trivNet false) trivBank () () () "banana" none =
      .error (.invalidMode "banana") :=
  invalid_mode_fatal (trivNet false) trivBank () () () "banana" none rfl
    (by decide) (by decide)

theorem mem_zipWith_emb {D : Nat} (ls : List SampleLabel) (es : List (Emb D)) (s : Sample D)
    (hs : s ∈ List.zipWith Sample.mk ls es) : s.emb ∈ es := by
  induction ls generalizing es with
  | nil => simp at hs
  | cons l ls ih =>
    cases es with
    | nil => simp at hs
    | cons e es =>
      rw [List.zipWith_cons_cons] at hs
      rcases List.mem_cons.mp hs with h | h
      · rw [h]
        exact List.mem_cons_self e es
      · exact List.mem_cons_of_mem e (ih es h)

/-- Claim C6: in all three modes the identity embedding is L2-normalized
inside forward before it is written into the bank or returned to the caller
(model.py lines 85, 112 and 142): every sample handed to the identity-loss
update and every embedding in the gallery and query outputs is either the
zero vector (the degenerate input of normalize) or has exact unit L2 norm,
whatever raw vectors the upstream reid head produced. -/
theorem reid_feat_normalized {D : Nat} {T : Type} (net : SIPNNet D T)
    (imData gtBoxes imInfo : T) :
    (∀ s ∈ trainSamples net imData gtBoxes imInfo, s.emb = 0 ∨ ‖s.emb‖ = 1) ∧
    (∀ v ∈ galleryReid net imData gtBoxes imInfo, v = 0 ∨ ‖v‖ = 1) ∧
    (∀ v ∈ queryReid net imData gtBoxes imInfo, v = 0 ∨ ‖v‖ = 1) := by
  refine ⟨?_, ?_, ?_⟩
  · intro s hs
    rw [trainSamples] at hs
    have hemb := mem_zipWith_emb _ _ s hs
    rw [trainReidFeat] at hemb
    obtain ⟨u, hu, heq⟩ := List.mem_map.mp hemb
    rw [← heq]
    exact normalizeV_zero_or_norm_one u
  · intro v hv
    rw [galleryReid] at hv
    obtain ⟨u, hu, heq⟩ := List.mem_map.mp hv
    rw [← heq]
    exact normalizeV_zero_or_norm_one u
  · intro v hv
    rw [queryReid] at hv
    obtain ⟨u, hu, heq⟩ := List.mem_map.mp hv
    rw [← heq]
    exact normalizeV_zero_or_norm_one u

theorem reid_feat_normalized_witness :
    normalizeV unitE = 0 ∨ ‖normalizeV unitE‖ = 1 := by
  have hmem : normalizeV unitE ∈ queryReid (trivNet false) () () () := by
    have hq : queryReid (trivNet false) () () () = [normalizeV unitE] := rfl
    rw [hq]
    exact List.mem_singleton.mpr rfl
  exact (reid_feat_normalized (trivNet false) () () ()).2.2 (normalizeV unitE) hmem

/-- Concrete bank with an empty lut and a single zero queue row. -/
noncomputable def c7Bank : IdentityBank 1 := ⟨[], [0], 0⟩

/-- Claim C7 counterexample: with momentum one, a single unlabeled-person
sample still overwrites a queue slot, so the update is not the identity on
the bank — the claim fails at this concrete batch and bank state. -/
theorem momentum_one_not_identity_cex :
    updateBatch (1 : ℝ) c7Bank [⟨.unlabeled, unitE⟩] ≠ .ok c7Bank := by
  have heval : updateBatch (1 : ℝ) c7Bank [⟨.unlabeled, unitE⟩] =
      .ok (⟨[], [unitE], 0⟩ : IdentityBank 1) := rfl
  rw [heval]
  intro h
  have h2 := Except.ok.inj h
  have h3 : ([unitE] : List (Emb 1)) = [0] := congrArg IdentityBank.queue h2
  injection h3 with h4 h5
  exact unitE_ne_zero h4

/-- Claim C7 amended: with momentum one the spec-modelled update is the pure
identity only on batches containing no unlabeled-person sample (an unlabeled
sample always advances the queue, whatever the momentum) and on bank states
whose lut rows are each zero or of unit norm (a known-identity sample
re-normalizes its row even with momentum one); under those conditions, with
every known id in range, repeated updates return the bank exactly
unchanged. -/
theorem momentum_one_fixed_point {D : Nat} (b : IdentityBank D) (ss : List (Sample D))
    (hnl : ∀ s ∈ ss, s.label ≠ .unlabeled)
    (hin : ∀ s ∈ ss, ∀ i, s.label = .known i → i < b.lut.length)
    (hrows : ∀ v ∈ b.lut, v = 0 ∨ ‖v‖ = 1) :
    updateBatch (1 : ℝ) b ss = .ok b := by
  induction ss with
  | nil => rfl
  | cons s ss ih =>
    have hstep : updateSample (1 : ℝ) b s = .ok b := by
      rcases s with ⟨lab, emb⟩
      cases lab with
      | background => rfl
      | unlabeled => exact absurd rfl (hnl ⟨.unlabeled, emb⟩ (List.mem_cons_self _ _))
      | known i =>
        have hi : i < b.lut.length := hin ⟨.known i, emb⟩ (List.mem_cons_self _ _) i rfl
        simp only [updateSample]
        rw [dif_pos hi]
        have hblend : (1 : ℝ) • b.lut.get ⟨i, hi⟩ + (1 - 1 : ℝ) • emb
            = b.lut.get ⟨i, hi⟩ := by
          rw [one_smul, sub_self, zero_smul, add_zero]
        rw [hblend]
        have hrow := hrows (b.lut.get ⟨i, hi⟩) (List.get_mem b.lut i hi)
        have hnorm : normalizeV (b.lut.get ⟨i, hi⟩) = b.lut.get ⟨i, hi⟩ := by
          rcases hrow with h0 | h1
          · rw [h0, normalizeV_zero]
          · exact normalizeV_of_norm_one h1
        rw [hnorm, set_get_self]
    rw [updateBatch_cons, hstep]
    show updateBatch (1 : ℝ) b ss = .ok b
    exact ih (fun s2 hs2 => hnl s2 (List.mem_cons_of_mem s hs2))
      (fun s2 hs2 => hin s2 (List.mem_cons_of_mem s hs2))

/-- Concrete bank whose single lut row has unit norm. -/
noncomputable def c7UnitBank : IdentityBank 1 := ⟨[unitE], [0], 0⟩

theorem momentum_one_fixed_point_witness :
    updateBatch (1 : ℝ) c7UnitBank [⟨.known 0, unitE⟩, ⟨.background, 0⟩] = .ok c7UnitBank := by
  apply momentum_one_fixed_point
  · intro s hs
    rcases List.mem_cons.mp hs with h | h
    · rw [h]
      intro hc
      exact SampleLabel.noConfusion hc
    · rw [List.mem_singleton] at h
      rw [h]
      intro hc
      exact SampleLabel.noConfusion hc
  · intro s hs i hk
    rcases List.mem_cons.mp hs with h | h
    · rw [h] at hk
      have hi : 0 = i := SampleLabel.known.inj hk
      have hlen : c7UnitBank.lut.length = 1 := rfl
      rw [hlen, ← hi]
      omega
    · rw [List.mem_singleton] at h
      rw [h] at hk
      exact SampleLabel.noConfusion hk
  · intro v hv
    have hlut : c7UnitBank.lut = [unitE] := rfl
    rw [hlut, List.mem_singleton] at hv
    rw [hv]
    exact Or.inr unitE_norm

/-- Identity de-normalization constants: zero means, unit stds. -/
def idCfg : BoxNormConfig := ⟨fun _ => 0, fun _ => 1⟩

/-- Claim C8: the gallery-mode box outputs are the raw predictions
de-normalized coordinatewise — multiplied by the configured stds repeated for
the two classes and shifted by the configured means (model.py lines 120-124)
— and with zero means and unit stds the de-normalization is the identity
transform; the successful forward gallery output carries exactly the
de-normalized rows. -/
theorem gallery_bbox_denorm {D : Nat} {T : Type} (net : SIPNNet D T) (bank : IdentityBank D)
    (imData gtBoxes imInfo : T) (cfg : BoxNormConfig) :
    (∀ (row : Fin 8 → ℝ) (c : Fin 8), denormBBox cfg row c =
      row c * cfg.stds ⟨c.val % 4, by omega⟩ + cfg.means ⟨c.val % 4, by omega⟩) ∧
    ((∀ j, cfg.means j = 0) → (∀ j, cfg.stds j = 1) →
      ∀ row : Fin 8 → ℝ, denormBBox cfg row = row) ∧
    (net.isTrain = false → ∀ out bank2,
      SIPN.forward net bank imData gtBoxes imInfo "gallery" (some cfg) = .ok (out, bank2) →
      out = .gallery (galleryClsProb net imData gtBoxes imInfo)
        ((galleryBBoxRaw net imData gtBoxes imInfo).map (denormBBox cfg))
        (galleryRois net imData gtBoxes imInfo)
        (galleryReid net imData gtBoxes imInfo)) := by
  refine ⟨fun row c => rfl, ?_, ?_⟩
  · intro hm hs row
    funext c
    show row c * cfg.stds ⟨c.val % 4, by omega⟩ + cfg.means ⟨c.val % 4, by omega⟩ = row c
    rw [hm, hs, mul_one, add_zero]
  · intro ht out bank2 h
    rw [SIPN.forward.eq_def, ht] at h
    simp only [Bool.false_eq_true, if_false, if_true] at h
    have h2 := Except.ok.inj h
    exact (congrArg Prod.fst h2).symm

theorem gallery_bbox_denorm_witness :
    denormBBox idCfg (fun _ => (3 : ℝ)) = (fun _ => (3 : ℝ)) ∧
    (ForwardOut.gallery (D := 1) (T := Unit) () [] () [normalizeV unitE] =
      .gallery (galleryClsProb (trivNet false) () () ())
        ((galleryBBoxRaw (trivNet false) () () ()).map (denormBBox idCfg))
        (galleryRois (trivNet false) () () ())
        (galleryReid (trivNet false) () () ())) := by
  have hthm := gallery_bbox_denorm (trivNet false) trivBank () () () idCfg
  constructor
  · exact hthm.2.1 (fun j => rfl) (fun j => rfl) (fun _ => (3 : ℝ))
  · have hf : SIPN.forward (trivNet false) trivBank () () () "gallery" (some idCfg) =
        .ok (.gallery () [] () [normalizeV unitE], trivBank) := rfl
    exact hthm.2.2 rfl (.gallery () [] () [normalizeV unitE]) trivBank hf

/-- Claim C9: the de-normalization configuration influences gallery-mode
inference only — training-mode calls (whatever the mode argument) and
query-mode inference calls give identical results under any two
configuration read outcomes, while a gallery-mode inference call with an
unreadable configuration fails fatally (the config.yml read of model.py
line 116 sits inside the gallery branch only and happens at call time). -/
theorem config_read_only_gallery {D : Nat} {T : Type} (net : SIPNNet D T)
    (bank : IdentityBank D) (imData gtBoxes imInfo : T) :
    (net.isTrain = true → ∀ mode c1 c2,
      SIPN.forward net bank imData gtBoxes imInfo mode c1 =
      SIPN.forward net bank imData gtBoxes imInfo mode c2) ∧
    (net.isTrain = false → ∀ c1 c2,
      SIPN.forward net bank imData gtBoxes imInfo "query" c1 =
      SIPN.forward net bank imData gtBoxes imInfo "query" c2) ∧
    (net.isTrain = false →
      SIPN.forward net bank imData gtBoxes imInfo "gallery" none =
        .error .configUnreadable) := by
  refine ⟨?_, ?_, ?_⟩
  · intro ht mode c1 c2
    rw [SIPN.forward.eq_def, SIPN.forward.eq_def, ht]
    simp only [eq_self_iff_true, if_true]
  · intro ht c1 c2
    rw [SIPN.forward.eq_def, SIPN.forward.eq_def, ht]
    have hne : ("query" : String) ≠ "gallery" := by decide
    simp only [Bool.false_eq_true, if_false, if_true, if_neg hne]
  · intro ht
    rw [SIPN.forward.eq_def, ht]
    simp only [Bool.false_eq_true, if_false, if_true]

theorem config_read_only_gallery_witness :
    SIPN.forward (trivNet true) trivBank () () () "banana" (some idCfg) =
      SIPN.forward (trivNet true) trivBank () () () "banana" none ∧
    SIPN.forward (trivNet false) trivBank () () () "gallery" none =
      .error .configUnreadable :=
  ⟨(config_read_only_gallery (trivNet true) trivBank () () ()).1 rfl "banana"
      (some idCfg) none,
    (config_read_only_gallery (trivNet false) trivBank () () ()).2.2 rfl⟩

/-- Claim C10: when the model is constructed with is_train true the mode
argument of forward is ignored entirely — any two mode strings give the same
result, the invalid-mode error can never be raised, and every successful
call yields the five-loss training output; the mode check of model.py lines
146-147 is reachable only with is_train false. -/
theorem train_ignores_mode {D : Nat} {T : Type} (net : SIPNNet D T) (bank : IdentityBank D)
    (imData gtBoxes imInfo : T) (cfgRead : Option BoxNormConfig) (ht : net.isTrain = true) :
    (∀ m1 m2, SIPN.forward net bank imData gtBoxes imInfo m1 cfgRead =
      SIPN.forward net bank imData gtBoxes imInfo m2 cfgRead) ∧
    (∀ mode s, SIPN.forward net bank imData gtBoxes imInfo mode cfgRead ≠
      .error (.invalidMode s)) ∧
    (∀ mode out bank2, SIPN.forward net bank imData gtBoxes imInfo mode cfgRead =
        .ok (out, bank2) →
      ∃ a b c d e, out = .losses a b c d e) := by
  refine ⟨?_, ?_, ?_⟩
  · intro m1 m2
    rw [SIPN.forward.eq_def, SIPN.forward.eq_def, ht]
    simp only [eq_self_iff_true, if_true]
  · intro mode s h
    rw [SIPN.forward.eq_def, ht] at h
    simp only [eq_self_iff_true, if_true] at h
    cases hu : updateBatch net.lutMomentum bank (trainSamples net imData gtBoxes imInfo) with
    | error e =>
      rw [hu] at h
      have h2 : (Except.error e : Except SIPNError (ForwardOut D T × IdentityBank D)) =
          .error (.invalidMode s) := h
      obtain ⟨i, hi⟩ :=
        updateBatch_error_shape net.lutMomentum (trainSamples net imData gtBoxes imInfo) bank e hu
      rw [hi] at h2
      exact SIPNError.noConfusion (Except.error.inj h2)
    | ok bank3 =>
      rw [hu] at h
      exact Except.noConfusion h
  · intro mode out bank2 h
    rw [SIPN.forward.eq_def, ht] at h
    simp only [eq_self_iff_true, if_true] at h
    cases hu : updateBatch net.lutMomentum bank (trainSamples net imData gtBoxes imInfo) with
    | error e =>
      rw [hu] at h
      exact Except.noConfusion h
    | ok bank3 =>
      rw [hu] at h
      have h2 := Except.ok.inj h
      exact ⟨_, _, _, _, _, (congrArg Prod.fst h2).symm⟩

theorem train_ignores_mode_witness :
    SIPN.forward (trivNet true) trivBank () () () "banana" none =
      SIPN.forward (trivNet true) trivBank () () () "gallery" none ∧
    SIPN.forward (trivNet true) trivBank () () () "banana" none ≠
      .error (.invalidMode "banana") := by
  have h := train_ignores_mode (trivNet true) trivBank () () () none rfl
  exact ⟨h.1 "banana" "gallery", h.2.1 "banana" "banana"⟩
